import Mathlib

/-!
Shallow embedding of the real-time chat session manager in `src/src/Chat.tsx`
(component `Chat`), with the wire interfaces of `src/unnamed/part_001`.

Conventions of the embedding:
* JavaScript truthiness on optional numbers (`x?.id` guards, `|| d` defaults)
  is modelled explicitly (`optTruthy`, `orElseNat`, `orElseStr`).
* A timestamp is carried as an integer. The source renders instants with
  `Date.toISOString()`, which on in-range inputs is an injective function of
  the millisecond value, so string equality of rendered instants coincides
  with equality of the underlying millisecond integers; the embedding keeps
  the integer.
* The raw `message` event payload is a string fed to `JSON.parse`; the
  embedding abstracts a payload as `Option RawMessage`, `none` standing for a
  payload on which parsing throws (the catch block logs and drops it).
* Backend calls (`invoke`) are request/response; a handler is embedded as a
  function of the pre-state and an oracle recording each call's outcome, and
  returns the post-state together with the list of commands it issued.
-/

namespace ChatApp

/-- JavaScript truthiness of an optional number: `undefined`/`null` and `0`
are falsy. Models guards such as `!currentUser?.id`. -/
def optTruthy (o : Option Nat) : Bool :=
  match o with
  | some n => n != 0
  | none => false

/-- JavaScript `o || d` on an optional number: `0` and absence fall back. -/
def orElseNat (o : Option Nat) (d : Nat) : Nat :=
  match o with
  | some n => if n == 0 then d else n
  | none => d

/-- JavaScript `o || d` on an optional string: the empty string and absence
fall back. -/
def orElseStr (o : Option String) (d : String) : String :=
  match o with
  | some s => if s == "" then d else s
  | none => d

/-- Leading-whitespace removal on a character list. -/
def dropLeadingWs : List Char → List Char
  | [] => []
  | c :: cs => if c.isWhitespace then dropLeadingWs cs else c :: cs

/-- JavaScript `String.prototype.trim`: removes whitespace from both ends
(an executable model of the library trim, used so guards evaluate). -/
def jsTrim (s : String) : String :=
  ⟨(dropLeadingWs (dropLeadingWs s.data.reverse).reverse)⟩

/-- JavaScript `String.prototype.replace` with a string pattern replaces the
first occurrence only (used on the server address: `addr.replace("0.0.0.0",
"127.0.0.1")`). -/
def replaceFirst (s pat rep : String) : String :=
  match s.splitOn pat with
  | [] => s
  | [x] => x
  | x :: rest => x ++ rep ++ String.intercalate pat rest

/-- `interface User` of the wire declarations. -/
structure User where
  id : Option Nat
  name : String
  email : String
  department_id : Option Nat
  department_name : Option String
  is_online : Bool
  last_seen : Option String
deriving DecidableEq, Repr

/-- `interface ChatRoom` of the wire declarations. -/
structure ChatRoom where
  id : Option Nat
  name : String
  description : Option String
  department_id : Option Nat
  department_name : Option String
  is_private : Bool
  user_count : Option Nat
deriving DecidableEq, Repr

/-- A message event payload after a successful `JSON.parse` (`interface
Message` read off the wire). `created_at` is the raw numeric timestamp the
event source sent, before any normalization. -/
structure RawMessage where
  id : Option Nat
  room_id : Nat
  room : String
  user_id : Nat
  username : String
  message : String
  message_type : String
  is_emoji : Bool
  created_at : Int
deriving DecidableEq, Repr

/-- A stored `MessageLog` entry. `created_at` holds the canonical instant in
milliseconds since the epoch (the integer underlying the ISO string the
source stores). -/
structure Msg where
  id : Option Nat
  room_id : Nat
  room : String
  user_id : Nat
  username : String
  message : String
  message_type : String
  is_emoji : Bool
  created_at : Int
deriving DecidableEq, Repr

/-- `new Date(Number(m.created_at) * 1000).toISOString()`: the source always
multiplies the raw value by 1000, i.e. it interprets every raw timestamp as
whole seconds; the canonical instant is that many milliseconds. -/
def normalizeCreatedAt (c : Int) : Int :=
  c * 1000

/-- The entry appended for an accepted event: room and room id are taken from
the active room (`currentRoom!.id!`, `currentRoom!.name!`), the stored sender
user id is the literal `0`, and the remaining fields come from the payload
(timestamp normalized). The object literal in the source has no `id` field. -/
def mkEntry (room : ChatRoom) (m : RawMessage) : Msg :=
  { id := none
    room_id := room.id.getD 0
    room := room.name
    user_id := 0
    username := m.username
    message := m.message
    message_type := m.message_type
    is_emoji := m.is_emoji
    created_at := normalizeCreatedAt m.created_at }

/-- The duplicate check of the `message` listener: some existing entry has
the same text, the same username, and a stored timestamp equal to the
normalization of the incoming raw timestamp. -/
def isDuplicate (prev : List Msg) (m : RawMessage) : Bool :=
  prev.any fun msg =>
    msg.message == m.message && msg.username == m.username &&
      msg.created_at == normalizeCreatedAt m.created_at

/-- The ingestion filter of the `message` listener:
`m.message_type === "Chat" && m.room === currentRoom?.name`. -/
def messageFilter (room : ChatRoom) (m : RawMessage) : Bool :=
  m.message_type == "Chat" && m.room == room.name

/-- The body of the `message` listener for one inbound event, given the
active room and the current log. A payload `JSON.parse` throws on is `none`:
the catch block logs it and returns, leaving the log unchanged. A parsed
payload is filtered, dedup-checked and appended. -/
def processEvent (room : ChatRoom) (prev : List Msg) (payload : Option RawMessage) :
    List Msg :=
  match payload with
  | none => prev
  | some m =>
    if messageFilter room m then
      if isDuplicate prev m then prev
      else prev ++ [mkEntry room m]
    else prev

/-- The subscription over a whole stream of inbound events, in arrival
order. The listener never re-raises, so one event's failure does not end the
fold. -/
def processEvents (room : ChatRoom) (prev : List Msg) (payloads : List (Option RawMessage)) :
    List Msg :=
  payloads.foldl (processEvent room) prev

/-- One backend `invoke` call, with the arguments the source passes.
Arguments the source may pass as `undefined` are carried as options. -/
inductive Command where
  | getDepartments
  | getChatRooms
  | getRoomMessages (roomId limit : Nat)
  | upsertUser (name email : String) (departmentId : Option Nat)
  | getUserById (id : Nat)
  | serverListen (username : String) (userId : Option Nat) (port : Nat)
  | getServerInfo
  | clientConnect (host username : String) (userId : Option Nat)
      (room : Option String) (roomId : Option Nat)
  | joinRoom (userId roomId : Option Nat)
  | send (message : String) (userId : Option Nat) (room : String)
      (roomId : Option Nat) (isEmoji : Bool)
deriving DecidableEq, Repr

/-- The React state of the `Chat` component that the session logic reads and
writes, plus `cachedUserId` for the persisted `localStorage` key
`nutler.userId`. -/
structure AppState where
  currentView : String
  mode : String
  username : String
  email : String
  departmentId : Option Nat
  serverIp : String
  message : String
  currentRoom : Option ChatRoom
  messages : List Msg
  chatRooms : List ChatRoom
  currentUser : Option User
  cachedUserId : Option Nat
deriving DecidableEq, Repr

/-- The component's initial state: `useState` initializers, with the
persisted user id (if any) already in storage. -/
def initialState (saved : Option Nat) : AppState :=
  { currentView := "login"
    mode := "client"
    username := ""
    email := ""
    departmentId := none
    serverIp := "127.0.0.1:3625"
    message := ""
    currentRoom := none
    messages := []
    chatRooms := []
    currentUser := none
    cachedUserId := saved }

/-- The guard of `handleJoin`:
`username.trim() && email.trim() && departmentId`. -/
def validJoinInput (s : AppState) : Bool :=
  jsTrim s.username != "" && jsTrim s.email != "" && optTruthy s.departmentId

/-- Outcomes of the backend calls `handleJoin` can make: `upsert` is the
`upsert_user` response (`none` = rejected), `serverListenOk` whether
`server_listen` resolves, `serverAddr` the `get_server_info` response,
`connectOk` whether `client_connect` resolves, and `rooms` the
`get_chat_rooms` response. -/
structure JoinOracle where
  upsert : Option User
  serverListenOk : Bool
  serverAddr : Option String
  connectOk : Bool
  rooms : Option (List ChatRoom)
deriving DecidableEq, Repr

/-- `loadChatRooms`: replaces the room list wholesale; a failure is caught
internally and leaves the previous snapshot. -/
def loadChatRooms (s : AppState) (rooms : Option (List ChatRoom)) : AppState :=
  match rooms with
  | some rs => { s with chatRooms := rs }
  | none => s

/-- The tail of a fully successful `handleJoin`: `await loadChatRooms()`
(whose failure is swallowed inside `loadChatRooms`) and then
`setCurrentView("rooms")`. -/
def finishJoin (s1 : AppState) (o : JoinOracle) (cmds : List Command) :
    AppState × List Command :=
  ({ loadChatRooms s1 o.rooms with currentView := "rooms" },
    cmds ++ [Command.getChatRooms])

/-- `handleJoin`. The guard rejects before any command is issued. After a
successful `upsert_user` the source immediately runs `setCurrentUser(user)`
and `localStorage.setItem("nutler.userId", String(user.id))`, before any
listen/connect step; every later failure lands in the catch block, which
only logs, so that user state survives it and the view stays as it was. -/
def handleJoin (s : AppState) (o : JoinOracle) : AppState × List Command :=
  if validJoinInput s then
    let cmds0 := [Command.upsertUser s.username s.email s.departmentId]
    match o.upsert with
    | none => (s, cmds0)
    | some user =>
      let s1 := { s with currentUser := some user, cachedUserId := user.id }
      if s.mode == "server" then
        let cmds1 := cmds0 ++ [Command.serverListen s.username user.id 3625]
        if !o.serverListenOk then (s1, cmds1)
        else
          match o.serverAddr with
          | none => (s1, cmds1 ++ [Command.getServerInfo])
          | some addr =>
            let host := replaceFirst addr "0.0.0.0" "127.0.0.1"
            let cmds2 := cmds1 ++ [Command.getServerInfo,
              Command.clientConnect host s.username user.id
                user.department_name user.department_id]
            if !o.connectOk then (s1, cmds2)
            else finishJoin s1 o cmds2
      else
        let cmds1 := cmds0 ++ [Command.clientConnect s.serverIp s.username
          user.id user.department_name user.department_id]
        if !o.connectOk then (s1, cmds1)
        else finishJoin s1 o cmds1
  else (s, [])

/-- Whether the listen/connect leg of `handleJoin` runs to completion for
this state and oracle (after a successful upsert). -/
def joinConnectOk (s : AppState) (o : JoinOracle) : Bool :=
  if s.mode == "server" then
    o.serverListenOk && o.serverAddr.isSome && o.connectOk
  else o.connectOk

/-- `handleJoinRoom(room)`: returns early unless `currentUser?.id` and
`room.id` are truthy; issues `join_room`; on success sets the room and the
"chat" view, on failure only logs. -/
def handleJoinRoom (s : AppState) (room : ChatRoom) (joinOk : Bool) :
    AppState × List Command :=
  if !optTruthy (s.currentUser.bind User.id) || !optTruthy room.id then (s, [])
  else
    let cmd := Command.joinRoom (s.currentUser.bind User.id) room.id
    if joinOk then
      ({ s with currentRoom := some room, currentView := "chat" }, [cmd])
    else (s, [cmd])

/-- `handleSendMessage`: guarded by a non-blank input and truthy
`currentRoom?.id` / `currentUser?.id`; issues `send`; on success only the
input text is cleared (the commented-out optimistic insertion is gone — the
listener is the sole writer of `MessageLog`); on failure only logs. -/
def handleSendMessage (s : AppState) (sendOk : Bool) : AppState × List Command :=
  if jsTrim s.message != "" && optTruthy (s.currentRoom.bind ChatRoom.id) &&
      optTruthy (s.currentUser.bind User.id) then
    let cmd := Command.send s.message (s.currentUser.bind User.id)
      ((s.currentRoom.map ChatRoom.name).getD "")
      (s.currentRoom.bind ChatRoom.id) false
    if sendOk then ({ s with message := "" }, [cmd])
    else (s, [cmd])
  else (s, [])

/-- `loadRoomMessages`: returns early unless `currentRoom?.id` is truthy;
replaces `MessageLog` wholesale with the fetched history (limit 50); a
failure is caught and leaves the log as it was. -/
def loadRoomMessages (s : AppState) (result : Option (List Msg)) : AppState :=
  if !optTruthy (s.currentRoom.bind ChatRoom.id) then s
  else
    match result with
    | some msgs => { s with messages := msgs }
    | none => s

/-- The boot-time auto-login effect: with a saved id present, fetch the user;
on success set `currentUser`, mirror the name into the form, enter the
"rooms" view and refresh the room list; on failure remove the saved id. -/
def autoLogin (s : AppState) (result : Option User)
    (rooms : Option (List ChatRoom)) : AppState :=
  match s.cachedUserId with
  | none => s
  | some _ =>
    match result with
    | none => { s with cachedUserId := none }
    | some user =>
      { loadChatRooms s rooms with
          currentUser := some user
          username := user.name
          currentView := "rooms" }

/-- The chat header's back button: `setCurrentView("rooms")` and nothing
else — in particular `currentRoom` is not cleared. -/
def backButton (s : AppState) : AppState :=
  { s with currentView := "rooms" }

/-- The chat header's logout button: `setCurrentView("login")` and nothing
else — neither `currentRoom` nor the cached user id is cleared. -/
def logoutButton (s : AppState) : AppState :=
  { s with currentView := "login" }

/-- The `message` listener as a state transition: the effect subscribes only
while a room is active (`if (!currentRoom) return`), and an event then acts
on `MessageLog` through `processEvent` for that room. -/
def ingestEvent (s : AppState) (payload : Option RawMessage) : AppState :=
  match s.currentRoom with
  | none => s
  | some room => { s with messages := processEvent room s.messages payload }

/-- The values the `connection_lost` listener's closure captures from the
render in which the reconnection effect ran: `serverIp`, `currentUser`,
`currentRoom`. -/
structure ConnEnv where
  serverIp : String
  currentUser : Option User
  currentRoom : Option ChatRoom
deriving DecidableEq, Repr

/-- The `client_connect` invocation a reconnection attempt makes, with the
source's `||` fallbacks, computed from one environment. -/
def reconnectArgs (env : ConnEnv) : Command :=
  Command.clientConnect env.serverIp
    (orElseStr (env.currentUser.map User.name) "")
    (some (orElseNat (env.currentUser.bind User.id) 0))
    (some (orElseStr (env.currentRoom.map ChatRoom.name) "Company Wide"))
    (some (orElseNat (env.currentRoom.bind ChatRoom.id) 1))

/-- How a reconnection chain ended: `reconnected` after a successful attempt
(`"Reconnected successfully"`), `maxReached` after the retry-count guard
fired (`"Max reconnection attempts reached"` — the terminal disconnected
surface; no further attempt is ever scheduled), `pending` when the supplied
outcome trace ran out with a timer still armed. -/
inductive ReconnectOutcome where
  | reconnected
  | maxReached
  | pending
deriving DecidableEq, Repr

/-- Observable trace and final closure state of one reconnection chain:
the delay waited before each attempt, the `client_connect` command each
attempt issued, and the final values of the closure's `retryCount` and
`retryDelay` variables. -/
structure ReconnectResult where
  delays : List Nat
  attempts : List Command
  retryCount : Nat
  retryDelay : Nat
  outcome : ReconnectOutcome
deriving DecidableEq, Repr

/-- `const maxRetries = 5`. -/
def maxRetries : Nat := 5

/-- `attemptReconnect` of the `connection_lost` listener, driven by the list
of attempt outcomes (`true` = `client_connect` resolved). The guard stops the
chain at `retryCount >= maxRetries`; otherwise the timer waits `retryDelay`
and the attempt fires `reconnectArgs env` — `env` is the closure's captured
environment, the same for every attempt of the chain. Success runs
`retryCount = 0` and schedules nothing further (`retryDelay` is left at its
current value); failure runs `retryCount++`, `retryDelay *= 2` and recurses. -/
def attemptReconnect (env : ConnEnv) (retryCount retryDelay : Nat)
    (results : List Bool) : ReconnectResult :=
  if retryCount ≥ maxRetries then
    { delays := [], attempts := [], retryCount := retryCount,
      retryDelay := retryDelay, outcome := .maxReached }
  else
    match results with
    | [] =>
      { delays := [], attempts := [], retryCount := retryCount,
        retryDelay := retryDelay, outcome := .pending }
    | ok :: rest =>
      if ok then
        { delays := [retryDelay], attempts := [reconnectArgs env],
          retryCount := 0, retryDelay := retryDelay, outcome := .reconnected }
      else
        let r := attemptReconnect env (retryCount + 1) (retryDelay * 2) rest
        { r with delays := retryDelay :: r.delays,
                 attempts := reconnectArgs env :: r.attempts }

/-- The whole `connection_lost` handler: fresh locals `retryDelay = 1000`,
`retryCount = 0`, then the first `attemptReconnect`. -/
def connectionLost (env : ConnEnv) (results : List Bool) : ReconnectResult :=
  attemptReconnect env 0 1000 results

/-- Modelled from the spec: the claim's reading of the reconnection chain, in
which the attempt that fires i-th reads the environment current at that
moment (`envAt i`) rather than the captured one. Used only to compare with
`connectionLost`. -/
def specReconnectGo (envAt : Nat → ConnEnv) (i retryCount : Nat)
    (results : List Bool) : List Command :=
  if retryCount ≥ maxRetries then []
  else
    match results with
    | [] => []
    | ok :: rest =>
      reconnectArgs (envAt i) ::
        (if ok then [] else specReconnectGo envAt (i + 1) (retryCount + 1) rest)

/-- Modelled from the spec: the attempt commands of a chain under the
current-values-at-fire-time reading. -/
def specReconnectCmds (envAt : Nat → ConnEnv) (results : List Bool) :
    List Command :=
  specReconnectGo envAt 0 0 results

/-- The states the `Chat` component can reach: the initial render (with any
persisted id) closed under every state-changing operation of the source —
the controlled inputs, the boot effect, the view-entry loads, the handlers,
the message listener, and the header buttons. -/
inductive Reachable : AppState → Prop where
  | init (saved : Option Nat) : Reachable (initialState saved)
  | autoLoginStep {s} (u : Option User) (rs : Option (List ChatRoom)) :
      Reachable s → Reachable (autoLogin s u rs)
  | loadRooms {s} (rs : Option (List ChatRoom)) :
      Reachable s → Reachable (loadChatRooms s rs)
  | loadMsgs {s} (r : Option (List Msg)) :
      Reachable s → Reachable (loadRoomMessages s r)
  | join {s} (o : JoinOracle) : Reachable s → Reachable (handleJoin s o).1
  | joinRoom {s} (room : ChatRoom) (ok : Bool) :
      Reachable s → Reachable (handleJoinRoom s room ok).1
  | sendMsg {s} (ok : Bool) : Reachable s → Reachable (handleSendMessage s ok).1
  | ingest {s} (p : Option RawMessage) : Reachable s → Reachable (ingestEvent s p)
  | back {s} : Reachable s → Reachable (backButton s)
  | logout {s} : Reachable s → Reachable (logoutButton s)
  | setUsername {s} (t : String) : Reachable s → Reachable { s with username := t }
  | setEmail {s} (t : String) : Reachable s → Reachable { s with email := t }
  | setDepartmentId {s} (d : Option Nat) :
      Reachable s → Reachable { s with departmentId := d }
  | setServerIp {s} (t : String) : Reachable s → Reachable { s with serverIp := t }
  | setMessageInput {s} (t : String) : Reachable s → Reachable { s with message := t }
  | setMode {s} (m : String) : Reachable s → Reachable { s with mode := m }

/-! Concrete fixtures, following the end-to-end scenarios of the spec. -/

/-- The user "Jane" of department "IT" (id 2), persisted as id 7. -/
def user7 : User :=
  { id := some 7
    name := "Jane"
    email := "jane@co.com"
    department_id := some 2
    department_name := some "IT"
    is_online := true
    last_seen := none }

/-- The room "IT General" with id 1. -/
def roomIT : ChatRoom :=
  { id := some 1
    name := "IT General"
    description := none
    department_id := some 2
    department_name := some "IT"
    is_private := false
    user_count := some 0 }

/-- The inbound event `{username: "Bob", message: "hi", message_type: "Chat",
room: "IT General", created_at: 1700000000}` (timestamp in whole seconds). -/
def rawBob : RawMessage :=
  { id := none
    room_id := 1
    room := "IT General"
    user_id := 42
    username := "Bob"
    message := "hi"
    message_type := "Chat"
    is_emoji := false
    created_at := 1700000000 }

/-- The same logical event with the timestamp given in milliseconds. -/
def rawBobMs : RawMessage :=
  { rawBob with created_at := 1700000000000 }

/-- The same event with the lowercase message kind convention. -/
def rawLowerKind : RawMessage :=
  { rawBob with message_type := "chat" }

/-- The same event addressed to a different room. -/
def rawOtherRoom : RawMessage :=
  { rawBob with room := "Marketing" }

/-- A captured reconnection environment: Jane in "IT General" on the default
address. -/
def envA : ConnEnv :=
  { serverIp := "127.0.0.1:3625"
    currentUser := some user7
    currentRoom := some roomIT }

/-- The environment after the user edits the server address during the
backoff window. -/
def envB : ConnEnv :=
  { envA with serverIp := "10.0.0.7:3625" }

/-- Environment history for a backoff window: the address edit lands before
the second attempt fires. -/
def envSwitch : Nat → ConnEnv :=
  fun i => if i == 0 then envA else envB

/-- A login form filled with Jane's details, in client mode. -/
def loginFilled : AppState :=
  { initialState none with
      username := "Jane"
      email := "jane@co.com"
      departmentId := some 2 }

/-- A join in which `upsert_user` returns Jane but `client_connect` is
rejected. -/
def failConnectOracle : JoinOracle :=
  { upsert := some user7
    serverListenOk := true
    serverAddr := some "0.0.0.0:3625"
    connectOk := false
    rooms := none }

/-- The rooms view reached by a successful auto-login of the persisted id 7. -/
def roomsState : AppState :=
  autoLogin (initialState (some 7)) (some user7) (some [roomIT])

/-- The chat view reached by joining "IT General" from `roomsState`. -/
def chatState : AppState :=
  (handleJoinRoom roomsState roomIT true).1

/-- `chatState` with a drafted message in the input box. -/
def chatStateDraft : AppState :=
  { chatState with message := "hi" }

/-! Unfolding lemmas for one step of the reconnection chain. -/

theorem attemptReconnect_maxed (env : ConnEnv) (c d : Nat) (results : List Bool)
    (hc : maxRetries ≤ c) :
    attemptReconnect env c d results =
      { delays := [], attempts := [], retryCount := c, retryDelay := d,
        outcome := .maxReached } := by
  rw [attemptReconnect.eq_def]
  simp [hc]

theorem attemptReconnect_nil (env : ConnEnv) (c d : Nat) (hc : c < maxRetries) :
    attemptReconnect env c d [] =
      { delays := [], attempts := [], retryCount := c, retryDelay := d,
        outcome := .pending } := by
  rw [attemptReconnect.eq_def]
  simp [Nat.not_le_of_lt hc]

theorem attemptReconnect_true (env : ConnEnv) (c d : Nat) (rest : List Bool)
    (hc : c < maxRetries) :
    attemptReconnect env c d (true :: rest) =
      { delays := [d], attempts := [reconnectArgs env], retryCount := 0,
        retryDelay := d, outcome := .reconnected } := by
  rw [attemptReconnect.eq_def]
  simp [Nat.not_le_of_lt hc]

theorem attemptReconnect_false (env : ConnEnv) (c d : Nat) (rest : List Bool)
    (hc : c < maxRetries) :
    attemptReconnect env c d (false :: rest) =
      { attemptReconnect env (c + 1) (d * 2) rest with
          delays := d :: (attemptReconnect env (c + 1) (d * 2) rest).delays,
          attempts :=
            reconnectArgs env :: (attemptReconnect env (c + 1) (d * 2) rest).attempts } := by
  conv_lhs => rw [attemptReconnect.eq_def]
  simp [Nat.not_le_of_lt hc]

/-- `maxRetries` unfolded, for arithmetic. -/
theorem maxRetries_eq : maxRetries = 5 := rfl

/-- The waits of a chain started at delay `d` double from `d`: the recorded
delay list is `[d, 2*d, 4*d, ...]` of whatever length the chain ran. -/
theorem attemptReconnect_delays_doubling (env : ConnEnv) (results : List Bool) :
    ∀ c d, (attemptReconnect env c d results).delays =
      (List.range (attemptReconnect env c d results).delays.length).map
        (fun i => d * 2 ^ i) := by
  induction results with
  | nil =>
    intro c d
    by_cases hc : maxRetries ≤ c
    · rw [attemptReconnect_maxed env c d _ hc]
      rfl
    · rw [attemptReconnect_nil env c d (Nat.lt_of_not_le hc)]
      rfl
  | cons ok rest ih =>
    intro c d
    by_cases hc : maxRetries ≤ c
    · rw [attemptReconnect_maxed env c d _ hc]
      rfl
    · cases ok with
      | true =>
        rw [attemptReconnect_true env c d rest (Nat.lt_of_not_le hc)]
        show [d] = List.map (fun i => d * 2 ^ i) (List.range 1)
        rw [show List.range 1 = [0] from rfl]
        simp
      | false =>
        rw [attemptReconnect_false env c d rest (Nat.lt_of_not_le hc)]
        have h := ih (c + 1) (d * 2)
        rw [show ({ attemptReconnect env (c + 1) (d * 2) rest with
            delays := d :: (attemptReconnect env (c + 1) (d * 2) rest).delays,
            attempts := reconnectArgs env ::
              (attemptReconnect env (c + 1) (d * 2) rest).attempts } :
            ReconnectResult).delays =
          d :: (attemptReconnect env (c + 1) (d * 2) rest).delays from rfl,
          List.length_cons, List.range_succ_eq_map, List.map_cons, List.map_map]
        congr 1
        · simp
        · conv_lhs => rw [h]
          apply List.map_congr_left
          intro i _
          simp only [Function.comp_apply, pow_succ]
          ring

/-- A chain never makes more than five attempts in total. -/
theorem attemptReconnect_length_le (env : ConnEnv) (results : List Bool) :
    ∀ c d, (attemptReconnect env c d results).delays.length + c ≤ maxRetries ∨
      maxRetries ≤ c := by
  induction results with
  | nil =>
    intro c d
    by_cases hc : maxRetries ≤ c
    · exact Or.inr hc
    · left
      rw [attemptReconnect_nil env c d (Nat.lt_of_not_le hc)]
      have := Nat.lt_of_not_le hc
      rw [maxRetries_eq] at this ⊢
      simp only [List.length_nil]
      omega
  | cons ok rest ih =>
    intro c d
    by_cases hc : maxRetries ≤ c
    · exact Or.inr hc
    · left
      cases ok with
      | true =>
        rw [attemptReconnect_true env c d rest (Nat.lt_of_not_le hc)]
        have := Nat.lt_of_not_le hc
        rw [maxRetries_eq] at this ⊢
        simp only [List.length_cons, List.length_nil]
        omega
      | false =>
        rw [attemptReconnect_false env c d rest (Nat.lt_of_not_le hc)]
        have hlt := Nat.lt_of_not_le hc
        rcases ih (c + 1) (d * 2) with h | h
        · rw [maxRetries_eq] at h ⊢
          simp only [List.length_cons]
          omega
        · have hc5 : c + 1 = maxRetries := by
            rw [maxRetries_eq] at hlt h ⊢
            omega
          have hz : (attemptReconnect env (c + 1) (d * 2) rest).delays.length = 0 := by
            rw [hc5, attemptReconnect_maxed env maxRetries (d * 2) rest (le_refl _)]
            rfl
          rw [maxRetries_eq] at hc5 ⊢
          simp only [List.length_cons, hz]
          omega

/-- Every attempt of a chain invokes `client_connect` with the captured
closure environment: the attempt commands are copies of `reconnectArgs env`. -/
theorem attemptReconnect_attempts_const (env : ConnEnv) (results : List Bool) :
    ∀ c d, (attemptReconnect env c d results).attempts =
      List.replicate (attemptReconnect env c d results).attempts.length
        (reconnectArgs env) := by
  induction results with
  | nil =>
    intro c d
    by_cases hc : maxRetries ≤ c
    · rw [attemptReconnect_maxed env c d _ hc]
      rfl
    · rw [attemptReconnect_nil env c d (Nat.lt_of_not_le hc)]
      rfl
  | cons ok rest ih =>
    intro c d
    by_cases hc : maxRetries ≤ c
    · rw [attemptReconnect_maxed env c d _ hc]
      rfl
    · cases ok with
      | true =>
        rw [attemptReconnect_true env c d rest (Nat.lt_of_not_le hc)]
        rfl
      | false =>
        rw [attemptReconnect_false env c d rest (Nat.lt_of_not_le hc)]
        rw [show ({ attemptReconnect env (c + 1) (d * 2) rest with
            delays := d :: (attemptReconnect env (c + 1) (d * 2) rest).delays,
            attempts := reconnectArgs env ::
              (attemptReconnect env (c + 1) (d * 2) rest).attempts } :
            ReconnectResult).attempts =
          reconnectArgs env ::
            (attemptReconnect env (c + 1) (d * 2) rest).attempts from rfl,
          List.length_cons, List.replicate_succ]
        congr 1
        exact ih (c + 1) (d * 2)

/-- After five consecutive failures the guard fires: the chain records
exactly the five doubled waits and ends in the terminal disconnected surface,
whatever outcomes might follow. -/
theorem connectionLost_five_failures (env : ConnEnv) (rest : List Bool) :
    connectionLost env (List.replicate 5 false ++ rest) =
      { delays := [1000, 2000, 4000, 8000, 16000],
        attempts := List.replicate 5 (reconnectArgs env),
        retryCount := 5, retryDelay := 32000, outcome := .maxReached } := by
  show attemptReconnect env 0 1000
    (false :: false :: false :: false :: false :: rest) = _
  rw [attemptReconnect_false env 0 1000 _ (by decide),
    attemptReconnect_false env 1 2000 _ (by decide),
    attemptReconnect_false env 2 4000 _ (by decide),
    attemptReconnect_false env 3 8000 _ (by decide),
    attemptReconnect_false env 4 16000 _ (by decide),
    attemptReconnect_maxed env 5 32000 rest (by decide)]
  rfl

/-- A success on the attempt after `k` failures (with `k < 5`) ends the
chain: the counter is reset to 0, the outcome is `reconnected`, exactly
`k + 1` attempts were made, later outcomes are ignored, and the closure's
delay variable is left at its doubled value `d * 2 ^ k`. -/
theorem attemptReconnect_success (env : ConnEnv) (rest : List Bool) :
    ∀ k c d, c + k < maxRetries →
      attemptReconnect env c d (List.replicate k false ++ true :: rest) =
        { delays := (List.range (k + 1)).map (fun i => d * 2 ^ i),
          attempts := List.replicate (k + 1) (reconnectArgs env),
          retryCount := 0, retryDelay := d * 2 ^ k,
          outcome := .reconnected } := by
  intro k
  induction k with
  | zero =>
    intro c d hc
    have hlt : c < maxRetries := by
      rw [maxRetries_eq] at hc ⊢
      omega
    rw [show List.replicate 0 false ++ true :: rest = true :: rest from rfl,
      attemptReconnect_true env c d rest hlt]
    have h1 : (List.range (0 + 1)).map (fun i => d * 2 ^ i) = [d] := by
      rw [show List.range (0 + 1) = [0] from rfl]
      simp
    rw [h1]
    simp
  | succ k ih =>
    intro c d hc
    have hlt : c < maxRetries := by
      rw [maxRetries_eq] at hc ⊢
      omega
    rw [show List.replicate (k + 1) false ++ true :: rest =
        false :: (List.replicate k false ++ true :: rest) from rfl,
      attemptReconnect_false env c d _ hlt,
      ih (c + 1) (d * 2) (by rw [maxRetries_eq] at hc ⊢; omega)]
    have hdelays : d :: (List.range (k + 1)).map (fun i => d * 2 * 2 ^ i) =
        (List.range (k + 1 + 1)).map (fun i => d * 2 ^ i) := by
      conv_rhs => rw [List.range_succ_eq_map, List.map_cons, List.map_map]
      congr 1
      · simp
      · apply List.map_congr_left
        intro i _
        simp only [Function.comp_apply, pow_succ]
        ring
    have hdelay : d * 2 * 2 ^ k = d * 2 ^ (k + 1) := by
      rw [pow_succ]
      ring
    rw [hdelays, hdelay]
    rfl

/-- The entry appended for an accepted event matches the dedup key of the
payload it came from, so the same payload is recognized as a duplicate
afterwards. -/
theorem isDuplicate_append_mkEntry (room : ChatRoom) (prev : List Msg)
    (m : RawMessage) :
    isDuplicate (prev ++ [mkEntry room m]) m = true := by
  unfold isDuplicate mkEntry
  simp [List.any_append]

/-- C2: ingesting an accepted payload appends exactly one entry, and
ingesting an identical copy of any payload a second time (with the first
result still in place and the same room active) changes nothing, because the
dedup check compares (username, text, normalized created-at) against every
existing entry. -/
theorem ingest_idempotent (room : ChatRoom) (prev : List Msg) (m : RawMessage) :
    processEvent room (processEvent room prev (some m)) (some m) =
      processEvent room prev (some m) ∧
    (messageFilter room m = true → isDuplicate prev m = false →
      (processEvent room prev (some m)).length = prev.length + 1) := by
  constructor
  · unfold processEvent
    cases hf : messageFilter room m
    · simp [hf]
    · cases hd : isDuplicate prev m
      · simp [hf, hd, isDuplicate_append_mkEntry]
      · simp [hf, hd]
  · intro hf hd
    unfold processEvent
    simp [hf, hd]

/-- C2 witness: the "Bob"/"hi" event of the spec scenario appended once and
deduplicated on its second arrival. -/
theorem ingest_idempotent_witness :
    processEvent roomIT (processEvent roomIT [] (some rawBob)) (some rawBob) =
      processEvent roomIT [] (some rawBob) ∧
    (processEvent roomIT [] (some rawBob)).length = 1 :=
  ⟨(ingest_idempotent roomIT [] rawBob).1,
    (ingest_idempotent roomIT [] rawBob).2 (by decide) (by decide)⟩

/-- C3 counterexample: the instant 1700000000 written in whole seconds and
the same instant written in milliseconds (1700000000000) do not normalize to
the same canonical value — the code multiplies both by 1000 — and therefore
the milliseconds form does not dedup against the seconds form: it is
appended as a second entry. -/
theorem seconds_vs_millis_no_dedup :
    normalizeCreatedAt rawBob.created_at ≠ normalizeCreatedAt rawBobMs.created_at ∧
    (processEvent roomIT (processEvent roomIT [] (some rawBob))
      (some rawBobMs)).length = 2 := by
  decide

/-- C3 (amended): normalization always interprets the raw value as whole
seconds and multiplies by 1000. It is injective — two events of the same
unit convention dedup exactly when their raw timestamps are equal — but it
is not unit-insensitive: for any nonzero instant the seconds form and the
milliseconds form (1000 times the seconds value) normalize to different
canonical values. -/
theorem normalize_fixed_unit (a b t : Int) (ht : t ≠ 0) :
    (normalizeCreatedAt a = normalizeCreatedAt b ↔ a = b) ∧
    normalizeCreatedAt t ≠ normalizeCreatedAt (t * 1000) := by
  unfold normalizeCreatedAt
  constructor
  · constructor
    · intro h
      exact mul_right_cancel₀ (by norm_num) h
    · intro h
      rw [h]
  · intro h
    have h2 : t = t * 1000 := mul_right_cancel₀ (by norm_num) h
    have h3 : t * (999 : Int) = 0 := by linarith
    rcases mul_eq_zero.mp h3 with h4 | h4
    · exact ht h4
    · norm_num at h4

/-- C3 witness: injectivity and unit-sensitivity at concrete instants. -/
theorem normalize_fixed_unit_witness :
    (normalizeCreatedAt 2 = normalizeCreatedAt 3 ↔ (2 : Int) = 3) ∧
    normalizeCreatedAt 1700000000 ≠ normalizeCreatedAt (1700000000 * 1000) :=
  normalize_fixed_unit 2 3 1700000000 (by decide)

/-- C4 counterexample: an event whose kind is the lowercase "chat" and whose
room field matches the active room is rejected by the filter and never
enters the log — the code compares against the capitalized "Chat", so the
claim's acceptance condition (kind "chat") is wrong about the accepted set. -/
theorem lowercase_chat_rejected :
    rawLowerKind.room = roomIT.name ∧
    messageFilter roomIT rawLowerKind = false ∧
    processEvent roomIT [] (some rawLowerKind) = [] := by
  decide

/-- C4 (amended): the filter accepts an event iff its kind is exactly the
capitalized "Chat" and its room equals the active room's name; a rejected
event leaves the log (and hence the whole state) unchanged — nothing is
buffered, so an event for another room cannot appear in that room's log
after switching to it; an accepted event is appended unless it is a
duplicate echo. -/
theorem ingest_filter_iff (room : ChatRoom) (prev : List Msg) (m : RawMessage) :
    (messageFilter room m = true ↔
      m.message_type = "Chat" ∧ m.room = room.name) ∧
    (messageFilter room m = false → processEvent room prev (some m) = prev) ∧
    (messageFilter room m = true → processEvent room prev (some m) =
      if isDuplicate prev m then prev else prev ++ [mkEntry room m]) ∧
    (processEvent room prev (some m) ≠ prev → messageFilter room m = true) := by
  refine ⟨?_, ?_, ?_, ?_⟩
  · unfold messageFilter
    simp [Bool.and_eq_true, beq_iff_eq]
  · intro hf
    unfold processEvent
    simp [hf]
  · intro hf
    unfold processEvent
    simp [hf]
  · intro hne
    cases hf : messageFilter room m
    · exfalso
      apply hne
      unfold processEvent
      simp [hf]
    · rfl

/-- C4 witness: an event for "Marketing" while "IT General" is active is
dropped without a trace. -/
theorem ingest_filter_iff_witness :
    processEvent roomIT [] (some rawOtherRoom) = [] :=
  (ingest_filter_iff roomIT [] rawOtherRoom).2.1 (by decide)

/-- C8: a payload that fails to parse is dropped: the log is unchanged, the
whole component state is unchanged, and the fold over the rest of the stream
continues exactly as if the event had not arrived — the listener's catch
block means a parse failure never escapes the handler or ends the
subscription. -/
theorem parse_failure_drops_event (room : ChatRoom) (prev : List Msg)
    (rest : List (Option RawMessage)) (s : AppState) :
    processEvent room prev none = prev ∧
    processEvents room prev (none :: rest) = processEvents room prev rest ∧
    ingestEvent s none = s := by
  refine ⟨rfl, rfl, ?_⟩
  unfold ingestEvent
  obtain ⟨cv, mo, un, em, di, si, me, cr, ms, chr, cu, ci⟩ := s
  cases cr <;> rfl

/-- C10: the entry appended for an accepted event takes its room and room id
from the currently active room, stores sender user id 0 regardless of the
payload's user_id, and takes only username, text, kind, emoji flag and the
normalized created-at from the event. -/
theorem accepted_entry_construction (room : ChatRoom) (rid : Nat)
    (prev : List Msg) (m : RawMessage) (hid : room.id = some rid)
    (hf : messageFilter room m = true) (hd : isDuplicate prev m = false) :
    processEvent room prev (some m) = prev ++
      [{ id := none, room_id := rid, room := room.name, user_id := 0,
         username := m.username, message := m.message,
         message_type := m.message_type, is_emoji := m.is_emoji,
         created_at := normalizeCreatedAt m.created_at }] := by
  unfold processEvent mkEntry
  simp [hf, hd, hid]

/-- C10 witness: the entry built for the "Bob"/"hi" event in "IT General":
room data from the active room, user id 0 (not the payload's 42). -/
theorem accepted_entry_construction_witness :
    processEvent roomIT [] (some rawBob) =
      [{ id := none, room_id := 1, room := "IT General", user_id := 0,
         username := "Bob", message := "hi", message_type := "Chat",
         is_emoji := false,
         created_at := normalizeCreatedAt rawBob.created_at }] :=
  accepted_entry_construction roomIT 1 [] rawBob rfl (by decide) (by decide)

/-- C9: sending a message never touches MessageLog: the log is unchanged in
every case; when the guard rejects (blank input or no truthy room/user id)
nothing happens at all; a failed send leaves the whole state unchanged; a
successful send that actually issued the command clears only the input
text. -/
theorem send_never_inserts_locally (s : AppState) (ok : Bool) :
    (handleSendMessage s ok).1.messages = s.messages ∧
    ((handleSendMessage s ok).2 = [] → (handleSendMessage s ok).1 = s) ∧
    (ok = false → (handleSendMessage s ok).1 = s) ∧
    (ok = true → (handleSendMessage s ok).2 ≠ [] →
      (handleSendMessage s ok).1 = { s with message := "" }) := by
  unfold handleSendMessage
  cases hg : (jsTrim s.message != "" && optTruthy (s.currentRoom.bind ChatRoom.id) &&
      optTruthy (s.currentUser.bind User.id))
  · simp [hg]
  · cases ok <;> simp [hg]

/-- C9 witness: sending "hi" from the chat view clears only the draft. -/
theorem send_never_inserts_locally_witness :
    (handleSendMessage chatStateDraft true).1.messages = chatStateDraft.messages ∧
    (handleSendMessage chatStateDraft true).1 =
      { chatStateDraft with message := "" } :=
  ⟨(send_never_inserts_locally chatStateDraft true).1,
    (send_never_inserts_locally chatStateDraft true).2.2.2 rfl (by decide)⟩

/-- C1 counterexample: one failed attempt (delay doubled to 2000) followed by
a successful one: the closure resets the attempt counter to 0 but leaves the
delay variable at 2000, so "a successful reconnect attempt resets both the
attempt counter and the delay to their initial values" fails for the delay. -/
theorem success_resets_counter_not_delay :
    (connectionLost envA [false, true]).retryCount = 0 ∧
    (connectionLost envA [false, true]).retryDelay = 2000 ∧
    ¬(connectionLost envA [false, true]).retryDelay = 1000 := by
  decide

/-- C1 (amended): after a connection_lost event, attempts are scheduled with
delays 1000, 2000, 4000, ... (doubling from 1000), at most 5 attempts in
total; five consecutive failures produce exactly the delays 1000..16000 and
the terminal max-reached surface, with no further attempt whatever follows;
a success after k failures ends the chain with the attempt counter reset to
0 and later outcomes ignored — the delay variable, however, is left at its
doubled value 1000 * 2 ^ k rather than being reset (each new
connection_lost event starts a fresh chain at 1000 again). -/
theorem backoff_policy (env : ConnEnv) (results : List Bool) :
    (connectionLost env results).delays =
      (List.range (connectionLost env results).delays.length).map
        (fun i => 1000 * 2 ^ i) ∧
    (connectionLost env results).delays.length ≤ 5 ∧
    (∀ rest, results = List.replicate 5 false ++ rest →
      (connectionLost env results).delays = [1000, 2000, 4000, 8000, 16000] ∧
      (connectionLost env results).outcome = .maxReached) ∧
    (∀ k rest, k < 5 → results = List.replicate k false ++ true :: rest →
      (connectionLost env results).retryCount = 0 ∧
      (connectionLost env results).outcome = .reconnected ∧
      (connectionLost env results).delays.length = k + 1 ∧
      (connectionLost env results).retryDelay = 1000 * 2 ^ k) := by
  refine ⟨attemptReconnect_delays_doubling env results 0 1000, ?_, ?_, ?_⟩
  · show (attemptReconnect env 0 1000 results).delays.length ≤ 5
    rcases attemptReconnect_length_le env results 0 1000 with h | h <;>
      rw [maxRetries_eq] at h <;> omega
  · intro rest hres
    rw [hres, connectionLost_five_failures]
    exact ⟨rfl, rfl⟩
  · intro k rest hk hres
    rw [hres]
    simp only [connectionLost]
    rw [attemptReconnect_success env rest k 0 1000 (by rw [maxRetries_eq]; omega)]
    refine ⟨rfl, rfl, by simp, rfl⟩

/-- C1 witness: a success on the third attempt (after two failures) resets
the counter, ends the chain and leaves the delay variable at 4000. -/
theorem backoff_policy_witness :
    (connectionLost envA [false, false, true]).retryCount = 0 ∧
    (connectionLost envA [false, false, true]).outcome = .reconnected ∧
    (connectionLost envA [false, false, true]).delays.length = 2 + 1 ∧
    (connectionLost envA [false, false, true]).retryDelay = 1000 * 2 ^ 2 :=
  (backoff_policy envA [false, false, true]).2.2.2 2 [] (by decide) rfl

/-- C7 (amended): every attempt of one reconnection chain invokes
client_connect with the environment the listener closure captured when it
was registered — `reconnectArgs env` uniformly — not with the environment
current when the attempt fires; an edit of serverIp / a room switch during
the backoff window re-registers the listener for future connection_lost
events but is never seen by the pending attempts of the running chain. -/
theorem reconnect_uses_captured_env (env : ConnEnv) (results : List Bool) :
    (connectionLost env results).attempts =
      List.replicate (connectionLost env results).attempts.length
        (reconnectArgs env) :=
  attemptReconnect_attempts_const env results 0 1000

/-- C7 counterexample: the server address is edited after the first failed
attempt (environment history `envSwitch`); under the claim's reading the
second attempt would use the new address (`specReconnectCmds`), but the
code's chain issues the captured arguments both times. -/
theorem reconnect_ignores_env_changes :
    (connectionLost envA [false, false]).attempts =
      [reconnectArgs envA, reconnectArgs envA] ∧
    specReconnectCmds envSwitch [false, false] =
      [reconnectArgs envA, reconnectArgs envB] ∧
    (connectionLost envA [false, false]).attempts ≠
      specReconnectCmds envSwitch [false, false] := by
  decide

/-- Case analysis of `handleJoin`: the four ways a join run can end, with
the exact resulting state of each. -/
theorem handleJoin_cases (s : AppState) (o : JoinOracle) :
    (validJoinInput s = false ∧ handleJoin s o = (s, [])) ∨
    (validJoinInput s = true ∧ o.upsert = none ∧
      handleJoin s o = (s, [Command.upsertUser s.username s.email s.departmentId])) ∨
    (∃ u, validJoinInput s = true ∧ o.upsert = some u ∧ joinConnectOk s o = false ∧
      (handleJoin s o).1 = { s with currentUser := some u, cachedUserId := u.id }) ∨
    (∃ u, validJoinInput s = true ∧ o.upsert = some u ∧ joinConnectOk s o = true ∧
      (handleJoin s o).1 = { loadChatRooms { s with currentUser := some u, cachedUserId := u.id } o.rooms with currentView := "rooms" }) := by
  cases hv : validJoinInput s with
  | false =>
    left
    exact ⟨rfl, by unfold handleJoin; simp [hv]⟩
  | true =>
    cases hu : o.upsert with
    | none =>
      right; left
      exact ⟨rfl, rfl, by unfold handleJoin; simp [hv, hu]⟩
    | some u =>
      cases hm : (s.mode == "server") with
      | false =>
        cases hcon : o.connectOk with
        | false =>
          right; right; left
          refine ⟨u, rfl, rfl, ?_, ?_⟩
          · unfold joinConnectOk
            simp [hm, hcon]
          · unfold handleJoin
            simp [hv, hu, hm, hcon]
        | true =>
          right; right; right
          refine ⟨u, rfl, rfl, ?_, ?_⟩
          · unfold joinConnectOk
            simp [hm, hcon]
          · unfold handleJoin finishJoin
            simp [hv, hu, hm, hcon]
      | true =>
        cases hl : o.serverListenOk with
        | false =>
          right; right; left
          refine ⟨u, rfl, rfl, ?_, ?_⟩
          · unfold joinConnectOk
            simp [hm, hl]
          · unfold handleJoin
            simp [hv, hu, hm, hl]
        | true =>
          cases haddr : o.serverAddr with
          | none =>
            right; right; left
            refine ⟨u, rfl, rfl, ?_, ?_⟩
            · unfold joinConnectOk
              simp [hm, hl, haddr]
            · unfold handleJoin
              simp [hv, hu, hm, hl, haddr]
          | some addr =>
            cases hcon : o.connectOk with
            | false =>
              right; right; left
              refine ⟨u, rfl, rfl, ?_, ?_⟩
              · unfold joinConnectOk
                simp [hm, hl, haddr, hcon]
              · unfold handleJoin
                simp [hv, hu, hm, hl, haddr, hcon]
            | true =>
              right; right; right
              refine ⟨u, rfl, rfl, ?_, ?_⟩
              · unfold joinConnectOk
                simp [hm, hl, haddr, hcon]
              · unfold handleJoin finishJoin
                simp [hv, hu, hm, hl, haddr, hcon]

/-- C5 (amended): `handleJoin` rejects before issuing any command when a
field is blank or the department is unset; a rejected `upsert_user` leaves
the state entirely unchanged; but when `upsert_user` succeeds and a later
step of the sequence (server start, address fetch, or connect) fails, the
view alone is left unchanged ("login") while `currentUser` is already set
and the user id already cached — partial user state IS retained; full
success additionally refreshes the room list and advances the view to
"rooms". -/
theorem handleJoin_failure_behavior (s : AppState) (o : JoinOracle) :
    (validJoinInput s = false → handleJoin s o = (s, [])) ∧
    (validJoinInput s = true → o.upsert = none →
      handleJoin s o = (s, [Command.upsertUser s.username s.email s.departmentId])) ∧
    (∀ u, o.upsert = some u → validJoinInput s = true → joinConnectOk s o = false →
      (handleJoin s o).1 = { s with currentUser := some u, cachedUserId := u.id }) ∧
    (∀ u, o.upsert = some u → validJoinInput s = true → joinConnectOk s o = true →
      (handleJoin s o).1 = { loadChatRooms { s with currentUser := some u, cachedUserId := u.id } o.rooms with currentView := "rooms" }) := by
  obtain ⟨hv, heq⟩ | ⟨hv, hu, heq⟩ | ⟨u0, hv, hu, hc, heq⟩ | ⟨u0, hv, hu, hc, heq⟩ :=
    handleJoin_cases s o
  · refine ⟨fun _ => heq, ?_, ?_, ?_⟩
    · intro hv'
      rw [hv] at hv'
      exact absurd hv' (by decide)
    · intro u hu' hv'
      rw [hv] at hv'
      exact absurd hv' (by decide)
    · intro u hu' hv'
      rw [hv] at hv'
      exact absurd hv' (by decide)
  · refine ⟨?_, fun _ _ => heq, ?_, ?_⟩
    · intro hv'
      rw [hv'] at hv
      exact absurd hv (by decide)
    · intro u hu' _
      rw [hu] at hu'
      exact absurd hu' (by simp)
    · intro u hu' _
      rw [hu] at hu'
      exact absurd hu' (by simp)
  · refine ⟨?_, ?_, ?_, ?_⟩
    · intro hv'
      rw [hv'] at hv
      exact absurd hv (by decide)
    · intro _ hu'
      rw [hu'] at hu
      exact absurd hu (by simp)
    · intro u hu' _ _
      rw [hu] at hu'
      obtain rfl : u0 = u := Option.some.injEq u0 u ▸ hu'.symm ▸ rfl
      exact heq
    · intro u hu' _ hc'
      rw [hc] at hc'
      exact absurd hc' (by decide)
  · refine ⟨?_, ?_, ?_, ?_⟩
    · intro hv'
      rw [hv'] at hv
      exact absurd hv (by decide)
    · intro _ hu'
      rw [hu'] at hu
      exact absurd hu (by simp)
    · intro u hu' _ hc'
      rw [hc] at hc'
      exact absurd hc' (by decide)
    · intro u hu' _ _
      rw [hu] at hu'
      obtain rfl : u0 = u := Option.some.injEq u0 u ▸ hu'.symm ▸ rfl
      exact heq

/-- C5 witness: Jane's join with a rejected connect keeps the login view but
retains the upserted user and the cached id. -/
theorem handleJoin_failure_behavior_witness :
    (handleJoin loginFilled failConnectOracle).1 =
      { loginFilled with currentUser := some user7, cachedUserId := some 7 } :=
  (handleJoin_failure_behavior loginFilled failConnectOracle).2.2.1 user7
    rfl (by decide) (by decide)

/-- C5 counterexample: with valid inputs, a successful `upsert_user` and a
rejected `client_connect`, the view does stay "login", but `currentUser` is
set and the user id is cached — refuting "no partial user state is
retained — in particular no currentUser is set and no user id is cached". -/
theorem join_retains_user_after_connect_failure :
    (handleJoin loginFilled failConnectOracle).1.currentView = "login" ∧
    (handleJoin loginFilled failConnectOracle).1.currentUser = some user7 ∧
    (handleJoin loginFilled failConnectOracle).1.cachedUserId = some 7 := by
  decide

/-- `loadChatRooms` changes only the room list. -/
theorem loadChatRooms_fields (s : AppState) (rs : Option (List ChatRoom)) :
    (loadChatRooms s rs).currentView = s.currentView ∧
    (loadChatRooms s rs).currentRoom = s.currentRoom := by
  unfold loadChatRooms
  cases rs <;> exact ⟨rfl, rfl⟩

/-- `handleJoin` never changes the active room and moves the view only to
"rooms" (on full success). -/
theorem handleJoin_view_room (s : AppState) (o : JoinOracle) :
    (handleJoin s o).1.currentRoom = s.currentRoom ∧
    ((handleJoin s o).1.currentView = s.currentView ∨
      (handleJoin s o).1.currentView = "rooms") := by
  obtain ⟨_, heq⟩ | ⟨_, _, heq⟩ | ⟨u, _, _, _, heq⟩ | ⟨u, _, _, _, heq⟩ :=
    handleJoin_cases s o
  · rw [heq]
    exact ⟨rfl, Or.inl rfl⟩
  · rw [heq]
    exact ⟨rfl, Or.inl rfl⟩
  · rw [heq]
    exact ⟨rfl, Or.inl rfl⟩
  · rw [heq]
    exact ⟨(loadChatRooms_fields _ o.rooms).2, Or.inr rfl⟩

/-- `handleJoinRoom` leaves the state alone or enters the chat view with the
chosen room. -/
theorem handleJoinRoom_cases (s : AppState) (room : ChatRoom) (ok : Bool) :
    (handleJoinRoom s room ok).1 = s ∨
    (handleJoinRoom s room ok).1 =
      { s with currentRoom := some room, currentView := "chat" } := by
  unfold handleJoinRoom
  cases hg : (!optTruthy (s.currentUser.bind User.id) || !optTruthy room.id)
  · cases ok
    · left
      simp [hg]
    · right
      simp [hg]
  · left
    simp [hg]

/-- `handleSendMessage` changes neither the view nor the active room. -/
theorem handleSendMessage_view_room (s : AppState) (ok : Bool) :
    (handleSendMessage s ok).1.currentView = s.currentView ∧
    (handleSendMessage s ok).1.currentRoom = s.currentRoom := by
  unfold handleSendMessage
  cases hg : (jsTrim s.message != "" && optTruthy (s.currentRoom.bind ChatRoom.id) &&
      optTruthy (s.currentUser.bind User.id))
  · simp [hg]
  · cases ok <;> simp [hg]

/-- `loadRoomMessages` changes neither the view nor the active room. -/
theorem loadRoomMessages_view_room (s : AppState) (r : Option (List Msg)) :
    (loadRoomMessages s r).currentView = s.currentView ∧
    (loadRoomMessages s r).currentRoom = s.currentRoom := by
  unfold loadRoomMessages
  cases hg : (!optTruthy (s.currentRoom.bind ChatRoom.id)) <;>
    cases r <;> simp [hg]

/-- The boot auto-login never changes the active room and moves the view
only to "rooms". -/
theorem autoLogin_view_room (s : AppState) (u : Option User)
    (rs : Option (List ChatRoom)) :
    (autoLogin s u rs).currentRoom = s.currentRoom ∧
    ((autoLogin s u rs).currentView = s.currentView ∨
      (autoLogin s u rs).currentView = "rooms") := by
  unfold autoLogin loadChatRooms
  cases hs : s.cachedUserId <;> cases u <;> cases rs <;> simp [hs]

/-- The message listener changes only the log. -/
theorem ingestEvent_view_room (s : AppState) (p : Option RawMessage) :
    (ingestEvent s p).currentView = s.currentView ∧
    (ingestEvent s p).currentRoom = s.currentRoom := by
  unfold ingestEvent
  cases hr : s.currentRoom <;> simp [hr]

/-- C6 (amended): in every reachable state the "chat" view implies an active
room (`currentRoom` non-null), preserved by every transition; the claim's
other half fails — back-navigation to "rooms" and logout to "login" do not
clear `currentRoom` (see the counterexample), so a room can stay active
outside the chat view. -/
theorem chat_view_has_active_room {s : AppState} (hs : Reachable s) :
    s.currentView = "chat" → s.currentRoom ≠ none := by
  induction hs with
  | init saved =>
    intro h
    simp [initialState] at h
  | autoLoginStep u rs hr ih =>
    intro h
    obtain ⟨hroom, hview⟩ := autoLogin_view_room _ u rs
    rw [hroom]
    rcases hview with hv | hv
    · exact ih (hv ▸ h)
    · rw [h] at hv
      exact absurd hv (by decide)
  | loadRooms rs hr ih =>
    intro h
    obtain ⟨hview, hroom⟩ := loadChatRooms_fields _ rs
    rw [hroom]
    exact ih (hview ▸ h)
  | loadMsgs r hr ih =>
    intro h
    obtain ⟨hview, hroom⟩ := loadRoomMessages_view_room _ r
    rw [hroom]
    exact ih (hview ▸ h)
  | join o hr ih =>
    intro h
    obtain ⟨hroom, hview⟩ := handleJoin_view_room _ o
    rw [hroom]
    rcases hview with hv | hv
    · exact ih (hv ▸ h)
    · rw [h] at hv
      exact absurd hv (by decide)
  | joinRoom room ok hr ih =>
    intro h
    obtain heq | heq := handleJoinRoom_cases _ room ok
    · rw [heq] at h ⊢
      exact ih h
    · rw [heq]
      simp
  | sendMsg ok hr ih =>
    intro h
    obtain ⟨hview, hroom⟩ := handleSendMessage_view_room _ ok
    rw [hroom]
    exact ih (hview ▸ h)
  | ingest p hr ih =>
    intro h
    obtain ⟨hview, hroom⟩ := ingestEvent_view_room _ p
    rw [hroom]
    exact ih (hview ▸ h)
  | back hr ih =>
    intro h
    simp [backButton] at h
  | logout hr ih =>
    intro h
    simp [logoutButton] at h
  | setUsername t hr ih =>
    intro h
    exact ih h
  | setEmail t hr ih =>
    intro h
    exact ih h
  | setDepartmentId d hr ih =>
    intro h
    exact ih h
  | setServerIp t hr ih =>
    intro h
    exact ih h
  | setMessageInput t hr ih =>
    intro h
    exact ih h
  | setMode m hr ih =>
    intro h
    exact ih h

/-- C6 witness: the reachable chat state obtained by auto-login and joining
"IT General" has an active room. -/
theorem chat_view_has_active_room_witness :
    chatState.currentRoom ≠ none :=
  chat_view_has_active_room
    (Reachable.joinRoom roomIT true
      (Reachable.autoLoginStep (some user7) (some [roomIT])
        (Reachable.init (some 7))))
    (by decide)

/-- C6 counterexample: pressing the back button from the chat view reaches a
state whose view is "rooms" while `currentRoom` is still "IT General" — the
button only sets the view, refuting "no room is active when the view is
login or rooms". -/
theorem room_survives_back_navigation :
    Reachable (backButton chatState) ∧
    (backButton chatState).currentView = "rooms" ∧
    (backButton chatState).currentRoom = some roomIT := by
  refine ⟨Reachable.back (Reachable.joinRoom roomIT true
    (Reachable.autoLoginStep (some user7) (some [roomIT])
      (Reachable.init (some 7)))), ?_, ?_⟩ <;> decide

end ChatApp
